import Mathlib

set_option maxRecDepth 1000000

/-!
Verification development for the orbit-path-predictor core
(`app/utils.py`, `app/model.py`).

Modelling conventions, used throughout:

* Python strings are modelled as `List Char`; Python `str` operations
  (`strip`, `splitlines`, `startswith`, slicing) are given faithful
  executable counterparts below.
* Python `float` values are modelled as exact rationals (`ℚ`).  Parsing
  (`float(...)`) is modelled by `parsePyFloat`, covering the decimal
  literal forms (optional sign, integer part, fractional part, optional
  exponent); formatting (`f"{x:11.8f}"`) by `format11_8`, which rounds
  half-to-even at 8 decimal places and left-pads with spaces to a
  minimum width of 11, as Python does.
* `math.sqrt` is strictly monotone on nonnegative arguments, so the
  minimum-distance scan of the source, which only ever compares
  distances with `<` and `<=`, is embedded over *squared* Euclidean
  distances, and the risk comparison `d <= threshold` becomes
  `dSq <= threshold ^ 2`; `none` stands for the `float("inf")` /
  "no data" sentinel throughout.  The reported field
  `round(dmin_km, 3)` of the result record is modelled exactly:
  `roundSqrt3` computes the half-even rounding of `1000·√dSq` (using
  only integer square-root comparisons, no irrational values), so the
  record stores the rounded distance while the risk flag is computed
  from the unrounded minimum, exactly as in the source.
* A Python function that can raise is embedded with an `Except` /
  `Option` result; an uncaught exception escaping the whole pipeline is
  the `PredictOutcome.raw` constructor, distinct from the structured
  `{"error": ...}` dictionary return (`PredictOutcome.errObj`).
* The external SGP4 propagator (`Satrec.twoline2rv` / `sat.sgp4`) and
  the wall clock are out of scope per the spec; they are abstracted as a
  function parameter `prop : ℤ → Option RawSample` giving, for each
  sampled offset `k` seconds, either `none` (non-zero SGP4 error code:
  the sample is dropped) or the raw timestamp/position/velocity, whose
  possibly non-finite components are `Option ℚ` (`none` = NaN/±inf,
  replaced by `0` by `sanitize_vector`, as in the source).
-/

deriving instance DecidableEq for Except

namespace OrbitPred

/-- The characters Python `str.strip()` / `\s` treat as whitespace
(ASCII subset: space, tab, LF, CR, VT, FF). -/
def isSpaceChar (c : Char) : Bool :=
  c == ' ' || c == '\t' || c == '\n' || c == '\r' || c == '\x0b' || c == '\x0c'

/-- Remove trailing whitespace (the right half of Python `str.strip()`). -/
def stripRight : List Char → List Char
  | [] => []
  | c :: cs =>
    match stripRight cs with
    | [] => if isSpaceChar c then [] else [c]
    | r => c :: r

/-- Python `str.strip()`. -/
def pyStrip (s : List Char) : List Char :=
  stripRight (s.dropWhile isSpaceChar)

/-- Split on every LF, keeping empty pieces (helper for `pySplitLines`). -/
def splitOnNl (acc : List Char) : List Char → List (List Char)
  | [] => [acc.reverse]
  | c :: t => if c = '\n' then acc.reverse :: splitOnNl [] t else splitOnNl (c :: acc) t

/-- Python `str.splitlines()` restricted to LF line breaks (inputs are
fed through `strip` per line afterwards, which removes any CR): a full
LF split, except that a trailing line break produces no empty final
piece and the empty string has no lines at all. -/
def pySplitLines (s : List Char) : List (List Char) :=
  if s = [] then []
  else if s.getLast? = some '\n' then (splitOnNl [] s).dropLast
  else splitOnNl [] s

/-- Python `s.startswith(p)`. -/
def listStartsWith : List Char → List Char → Bool
  | _, [] => true
  | [], _ :: _ => false
  | c :: cs, p :: ps => c == p && listStartsWith cs ps

/-- Python slice `s[a:b]` (for `0 ≤ a ≤ b`). -/
def pySlice (s : List Char) (a b : Nat) : List Char :=
  (s.drop a).take (b - a)

/-- Python `s.ljust(n)` (pad on the right with spaces). -/
def pyLjust (s : List Char) (n : Nat) : List Char :=
  s ++ List.replicate (n - s.length) ' '

/-- Value of a most-significant-digit-first run of ASCII digits. -/
def evalDigits (ds : List Char) : Nat :=
  ds.foldl (fun a c => 10 * a + (c.toNat - 48)) 0

/-- Tail of a Python float literal after `e`/`E`: optional sign then a
nonempty digit run; `none` when malformed. -/
def parseExpTail (s : List Char) : Option ℤ :=
  let sgn : ℤ := if s.headD ' ' = '-' then -1 else 1
  let s1 := if s.headD ' ' = '-' ∨ s.headD ' ' = '+' then s.tail else s
  let ds := s1.takeWhile Char.isDigit
  if ds = [] ∨ s1.drop ds.length ≠ [] then none
  else some (sgn * (evalDigits ds : ℤ))

/-- Model of Python `float(str)` on decimal literals: surrounding
whitespace, optional sign, digits with optional point and optional
exponent.  (The special spellings `inf`/`nan` and `_` separators are
not modelled; no claim touches them.) -/
def parsePyFloat (cs : List Char) : Option ℚ :=
  let s := pyStrip cs
  let sgn : ℚ := if s.headD ' ' = '-' then -1 else 1
  let s1 := if s.headD ' ' = '-' ∨ s.headD ' ' = '+' then s.tail else s
  let ip := s1.takeWhile Char.isDigit
  let s2 := s1.drop ip.length
  let fp := if s2.headD ' ' = '.' then s2.tail.takeWhile Char.isDigit else []
  let s3 := if s2.headD ' ' = '.' then s2.tail.drop fp.length else s2
  if ip = [] ∧ fp = [] then none
  else
    let mant : ℚ := (evalDigits ip : ℚ) + (evalDigits fp : ℚ) / (10 : ℚ) ^ fp.length
    if s3 = [] then some (sgn * mant)
    else if s3.headD ' ' = 'e' ∨ s3.headD ' ' = 'E' then
      (parseExpTail s3.tail).map fun e => sgn * mant * (10 : ℚ) ^ e
    else none

/-- Round to the nearest integer, ties to even (the rounding Python's
fixed-point float formatting applies). -/
def roundHalfEven (q : ℚ) : ℤ :=
  let f := ⌊q⌋
  let r := q - f
  if r < 1 / 2 then f
  else if 1 / 2 < r then f + 1
  else if f % 2 = 0 then f else f + 1

/-- Fuel-driven digit extraction (structural, so the kernel can
evaluate it; proved equal to the `Nat.digits` rendering below). -/
def natToDigitsAux (fuel m : Nat) (acc : List Char) : List Char :=
  match fuel with
  | 0 => acc
  | fuel + 1 => if m = 0 then acc else natToDigitsAux fuel (m / 10) (Nat.digitChar (m % 10) :: acc)

/-- Decimal digits of a natural number, most significant first. -/
def natToDigits (m : Nat) : List Char :=
  if m = 0 then ['0'] else natToDigitsAux m m []

/-- Model of Python `f"{x:11.8f}"`: 8 digits after the point, rounded
half-to-even, left-padded with spaces to a minimum total width of 11
(wider values render wider, exactly as in Python). -/
def format11_8 (x : ℚ) : List Char :=
  let n := roundHalfEven (x * 100000000)
  let a := n.natAbs
  let core := (if x < 0 then ['-'] else []) ++
    natToDigits (a / 100000000) ++ '.' :: (List.replicate (8 - (natToDigits (a % 100000000)).length) '0' ++ natToDigits (a % 100000000))
  List.replicate (11 - core.length) ' ' ++ core

/-- Exact model of `round(math.sqrt s, 3)` for a nonnegative squared
distance `s`: the half-to-even rounding of `1000·√s`, divided by 1000.
No irrational value is ever formed — `⌊1000·√s⌋` is the integer square
root of `⌊10^6·s⌋`, and the half-point comparison `1000·√s ≶ f + 1/2`
is decided by squaring both (nonnegative) sides, with the exact tie
broken to even. -/
def roundSqrt3 (s : ℚ) : ℚ :=
  let f : ℕ := Nat.sqrt (⌊1000000 * s⌋.toNat)
  let n : ℕ :=
    if 4000000 * s < (((2 * f + 1 : ℕ) : ℚ)) ^ 2 then f
    else if (((2 * f + 1 : ℕ) : ℚ)) ^ 2 < 4000000 * s then f + 1
    else if f % 2 = 0 then f else f + 1
  (n : ℚ) / 1000

/-! ### `app/utils.py` -/

namespace utils

/-- Model of `utils.tle_checksum`: sum over the first 68 characters, each digit
at its value, each minus sign as 1, everything else 0; the result is
the digit of the sum modulo 10. -/
def tle_checksum (line : List Char) : Char :=
  Nat.digitChar ((line.take 68).foldl
    (fun s c => if c.isDigit then s + (c.toNat - 48) else if c = '-' then s + 1 else s) 0 % 10)

/-- Model of `utils.replace_col_span`: replace the 1-based inclusive column span
`[start, end]` with `value` (`s[:start-1] + value + s[end:]`). -/
def replace_col_span (s : List Char) (start stop : Nat) (value : List Char) : List Char :=
  s.take (start - 1) ++ value ++ s.drop stop

/-- Model of `utils.adjust_mean_motion_l2`: parse columns 53–63 of line 2 as a
float, add the delta, re-render with `f"{new_mm:11.8f}"`, substitute the
span back, pad to 68 plus a `"0"` when shorter than 69, then overwrite
the final column with a freshly computed checksum.  `none` models the
`ValueError` the un-guarded `float(...)` raises on an unparseable
field. -/
def adjust_mean_motion_l2 (line2 : List Char) (delta_rev_per_day : ℚ) : Option (List Char) :=
  (parsePyFloat (pySlice line2 52 63)).map fun current_mm =>
    let mm_str := format11_8 (current_mm + delta_rev_per_day)
    let l2 := replace_col_span line2 53 63 mm_str
    let l2 := if l2.length < 69 then pyLjust l2 68 ++ ['0'] else l2
    l2.take 68 ++ [tle_checksum l2]

/-- Match of `1\s+\d{5}[U ]\s` (with `re.IGNORECASE`, so also `u`) at
the head of the list, returning the number of characters consumed.
The subpattern is deterministic: `\s+` must take the whole whitespace
run because a digit is never whitespace, so no backtracking can arise.
(The `headD` defaults never produce a spurious match: they are guarded
by the explicit length conditions.) -/
def matchP1 (s : List Char) : Option Nat :=
  if s.headD ' ' = '1' then
    let w := (s.tail.takeWhile isSpaceChar).length
    let afterWs := s.tail.drop w
    if 1 ≤ w ∧ 5 ≤ afterWs.length ∧ (afterWs.take 5).all Char.isDigit ∧
        2 ≤ (afterWs.drop 5).length ∧
        ((afterWs.drop 5).headD 'x' = 'U' ∨ (afterWs.drop 5).headD 'x' = 'u' ∨
          (afterWs.drop 5).headD 'x' = ' ') ∧
        isSpaceChar ((afterWs.drop 5).tail.headD 'x') = true then
      some (1 + w + 5 + 2)
    else none
  else none

/-- Match of `2\s+\d{5}\s` at the head of the list, returning the
number of characters consumed. -/
def matchP2 (s : List Char) : Option Nat :=
  if s.headD ' ' = '2' then
    let w := (s.tail.takeWhile isSpaceChar).length
    let afterWs := s.tail.drop w
    if 1 ≤ w ∧ 5 ≤ afterWs.length ∧ (afterWs.take 5).all Char.isDigit ∧
        1 ≤ (afterWs.drop 5).length ∧
        isSpaceChar ((afterWs.drop 5).headD 'x') = true then
      some (1 + w + 5 + 1)
    else none
  else none

/-- Index of the first suffix position at which `matchP2` succeeds. -/
def firstP2 : List Char → Option Nat
  | [] => none
  | c :: cs =>
    if (matchP2 (c :: cs)).isSome then some 0
    else (firstP2 cs).map (· + 1)

/-- Search of `_TLE_PAIR_REGEX`, i.e.
`(1\s+\d{5}[U ]\s.*?)(2\s+\d{5}\s.*)` with `IGNORECASE | DOTALL`:
the leftmost start where the line-1 prefix matches and a line-2 prefix
follows somewhere after it wins, the lazy `.*?` making group 1 end at
the earliest such line-2 prefix, and the greedy `.*` putting the whole
tail into group 2. -/
def tleSearch : List Char → Option (List Char × List Char)
  | [] => none
  | c :: cs =>
    match matchP1 (c :: cs) with
    | some k =>
      match firstP2 ((c :: cs).drop k) with
      | some r => some ((c :: cs).take (k + r), (c :: cs).drop (k + r))
      | none => tleSearch cs
    | none => tleSearch cs

/-- The stripped, non-blank lines of the stripped input
(`[ln.strip() for ln in raw.splitlines() if ln.strip()]`). -/
def linesOf (tle_text : List Char) : List (List Char) :=
  ((pySplitLines (pyStrip tle_text)).map pyStrip).filter (· ≠ [])

/-- First accepted input shape of `utils.normalize_tle_block`: at least
two non-blank lines, the first starting `"1 "`, the second `"2 "`. -/
def twoLineShape (tle_text : List Char) : Bool :=
  decide (2 ≤ (linesOf tle_text).length) &&
    listStartsWith ((linesOf tle_text).getD 0 []) "1 ".toList &&
    listStartsWith ((linesOf tle_text).getD 1 []) "2 ".toList

/-- Second accepted input shape of `utils.normalize_tle_block`: at
least three non-blank lines, the second starting `"1 "`, the third
`"2 "` (the first being the object name). -/
def threeLineShape (tle_text : List Char) : Bool :=
  decide (3 ≤ (linesOf tle_text).length) &&
    listStartsWith ((linesOf tle_text).getD 1 []) "1 ".toList &&
    listStartsWith ((linesOf tle_text).getD 2 []) "2 ".toList

/-- Model of `raw.replace("\n", " ")`: the stripped input as a single blob with
newlines turned into spaces, fed to the regex search. -/
def blobOf (tle_text : List Char) : List Char :=
  (pyStrip tle_text).map fun c => if c = '\n' then ' ' else c

/-- The message of the `ValueError` raised when no shape matches. -/
def parseErrorMsg : List Char :=
  "Could not parse TLE. Provide 2-line or 3-line TLE, or a single line containing L1 and L2.".toList

/-- Model of `utils.normalize_tle_block`: two already-split lines with `"1 "` /
`"2 "` prefixes, or three lines with a leading name, or a regex search
over the text with newlines replaced by spaces; `Except.error` models
the `ValueError` raised when nothing matches. -/
def normalize_tle_block (tle_text : List Char) :
    Except (List Char) (List Char × List Char × List Char) :=
  if twoLineShape tle_text then
    .ok ("UNKNOWN".toList, (linesOf tle_text).getD 0 [], (linesOf tle_text).getD 1 [])
  else if threeLineShape tle_text then
    .ok ((linesOf tle_text).getD 0 [], (linesOf tle_text).getD 1 [], (linesOf tle_text).getD 2 [])
  else
    match tleSearch (blobOf tle_text) with
    | some (g1, g2) => .ok ("UNKNOWN".toList, pyStrip g1, pyStrip g2)
    | none => .error parseErrorMsg

/-- Model of `utils.generate_safe_tle`: normalize, nudge the mean motion by
`dv_mps * 0.00005` rev/day through the checksum-fixing editor, and
rename `"UNKNOWN"` objects to `"SAFE"`; `none` models an uncaught
exception (there is no `try` in this revision). -/
def generate_safe_tle (original_tle : List Char) (dv_mps : ℚ) : Option (List Char) :=
  match normalize_tle_block original_tle with
  | .error _ => none
  | .ok (name, l1, l2) =>
    (adjust_mean_motion_l2 l2 (dv_mps * (1 / 20000))).map fun new_l2 =>
      let out_name := if name ≠ "UNKNOWN".toList then name else "SAFE".toList
      out_name ++ '\n' :: l1 ++ '\n' :: new_l2

end utils

/-! ### `app/model.py` -/

namespace model

/-- Constant `model.LEO_CA_THRESHOLD_KM`. -/
def LEO_CA_THRESHOLD_KM : ℚ := 5

/-- Constant `model.GEO_CA_THRESHOLD_KM`. -/
def GEO_CA_THRESHOLD_KM : ℚ := 25

/-- A 3-vector of possibly non-finite floats as delivered by the
external propagator (`none` = NaN or ±infinity). -/
def RawVec : Type := Option ℚ × Option ℚ × Option ℚ

/-- Model of `model.sanitize_vector`: replace NaN / ±infinity components with
`0.0`. -/
def sanitize_vector (vec : RawVec) : ℚ × ℚ × ℚ :=
  (vec.1.getD 0, vec.2.1.getD 0, vec.2.2.getD 0)

/-- Model of `model.regime_from_mean_motion`. -/
def regime_from_mean_motion (mm_rev_per_day : ℚ) : List Char :=
  if mm_rev_per_day > 10 then "LEO".toList
  else if mm_rev_per_day < 2 then "GEO".toList
  else "MEO".toList

/-- Model of `model.normalize_tle_block`: exactly three lines with a name, or
exactly two lines, else `ValueError("Invalid TLE format")`. -/
def normalize_tle_block (tle_text : List Char) :
    Except (List Char) (List Char × List Char × List Char) :=
  let lines := ((pySplitLines (pyStrip tle_text)).map pyStrip).filter (· ≠ [])
  if lines.length = 3 ∧ listStartsWith (lines.getD 1 []) "1 ".toList ∧
      listStartsWith (lines.getD 2 []) "2 ".toList then
    .ok (lines.getD 0 [], lines.getD 1 [], lines.getD 2 [])
  else if lines.length = 2 ∧ listStartsWith (lines.getD 0 []) "1 ".toList ∧
      listStartsWith (lines.getD 1 []) "2 ".toList then
    .ok ("UNKNOWN".toList, lines.getD 0 [], lines.getD 1 [])
  else .error "Invalid TLE format".toList

/-- Model of `model.validate_tle`: normalize, then reject lines shorter than 68
characters (`ValueError("TLE lines too short")`). -/
def validate_tle (tle_text : List Char) :
    Except (List Char) (List Char × List Char × List Char) :=
  match normalize_tle_block tle_text with
  | .error e => .error e
  | .ok (name, l1, l2) =>
    if l1.length < 68 ∨ l2.length < 68 then .error "TLE lines too short".toList
    else .ok (name, l1, l2)

/-- One raw propagator answer: timestamp (ISO string built from the
wall clock) and raw position / velocity vectors.  `prop k = none`
models a non-zero SGP4 error code at offset `k` seconds (the sample is
dropped). -/
structure RawSample where
  t : List Char
  r : RawVec
  v : RawVec

/-- A sanitized trajectory sample as stored by
`model.propagate_positions`. -/
structure Sample where
  t : List Char
  r : ℚ × ℚ × ℚ
  v : ℚ × ℚ × ℚ
deriving DecidableEq, Inhabited

/-- Python `range(0, stop, step)` for `step ≠ 0` (the `step = 0` case
raises and is handled by the caller of this model). -/
def pyRange (stop step : ℤ) : List ℤ :=
  if 0 < step ∧ 0 < stop then
    (List.range ((stop - 1).toNat / step.toNat + 1)).map fun i => step * i
  else []

/-- Model of `model.propagate_positions`, the external SGP4 calls abstracted
into `prop`: validation failures are swallowed by the `try`/`except`
(empty trajectory), but `range(0, minutes*60 + 1, step_s)` with
`step_s = 0` raises an uncaught `ValueError`, modelled as `.error`. -/
def propagate_positions (prop : ℤ → Option RawSample) (tle_text : List Char)
    (minutes step_s : ℤ) : Except (List Char) (List Sample) :=
  match validate_tle tle_text with
  | .error _ => .ok []
  | .ok _ =>
    if step_s = 0 then .error "range() arg 3 must not be zero".toList
    else .ok ((pyRange (minutes * 60 + 1) step_s).filterMap fun k =>
      (prop k).map fun rs => ⟨rs.t, sanitize_vector rs.r, sanitize_vector rs.v⟩)

/-- Squared Euclidean distance between two position vectors.  The
source compares `math.sqrt` distances with `<` / `<=` only, and square
root is strictly monotone on nonnegatives, so the scan and the risk
comparison are carried out on squares (see the module docstring). -/
def sqDist (p q : ℚ × ℚ × ℚ) : ℚ :=
  (p.1 - q.1) ^ 2 + (p.2.1 - q.2.1) ^ 2 + (p.2.2 - q.2.2) ^ 2

/-- The minimum scan of `model.nearest_approach_km`: `none` is the
`dmin = inf, kmin = -1` initial state, and an entry replaces the best
exactly when its (squared) distance is strictly smaller. -/
def nearLoop : List ℚ → Nat → Option (ℚ × Nat) → Option (ℚ × Nat)
  | [], _, best => best
  | d :: rest, i, best =>
    nearLoop rest (i + 1)
      (match best with
       | none => some (d, i)
       | some (dmin, kmin) => if d < dmin then some (d, i) else some (dmin, kmin))

/-- The metadata dictionary built for `kmin >= 0`. -/
structure Meta where
  time : List Char
  sat_r : ℚ × ℚ × ℚ
  deb_r : ℚ × ℚ × ℚ
  index : Nat
deriving DecidableEq

/-- Model of `model.nearest_approach_km` over squared distances: the first
component is the squared minimum distance (`none` = `float("inf")`,
no valid pair), the second the metadata (`none` = the empty dict). -/
def nearest_approach_km (path_a path_b : List Sample) : Option ℚ × Option Meta :=
  match nearLoop ((path_a.zip path_b).map fun p => sqDist p.1.r p.2.r) 0 none with
  | none => (none, none)
  | some (dmin, kmin) =>
    (some dmin, some ⟨(path_a.getD kmin default).t, (path_a.getD kmin default).r,
      (path_b.getD kmin default).r, kmin⟩)

/-- Model of `model.generate_safe_tle`: the whole body is wrapped in
`try ... except: return original_tle`, so a normalization failure or an
unparseable mean-motion field returns the input text unchanged; note
that, unlike `utils.adjust_mean_motion_l2`, the substitution neither
recomputes the checksum nor renames the object. -/
def generate_safe_tle (original_tle : List Char) (dv_mps : ℚ) : List Char :=
  match normalize_tle_block original_tle with
  | .error _ => original_tle
  | .ok (name, l1, l2) =>
    match parsePyFloat (pySlice l2 52 63) with
    | none => original_tle
    | some current_mm =>
      let mm_str := format11_8 (current_mm + dv_mps * (1 / 20000))
      let new_l2 := l2.take 52 ++ mm_str ++ l2.drop 63
      name ++ '\n' :: l1 ++ '\n' :: new_l2

/-- The risk flag of `model.predict_safe_path` step 4: `risky` stays
`False` when `dmin` is the infinity sentinel, otherwise it is
`dmin <= threshold` (here compared on squares). -/
def assess_risky (dminSq : Option ℚ) (threshold : ℚ) : Bool :=
  match dminSq with
  | none => false
  | some d => decide (d ≤ threshold ^ 2)

/-- The `risk` sub-dictionary of the result.  `minDistanceKm` holds
`round(dmin_km, 3)` — the rounded distance in km, via `roundSqrt3` on
the squared minimum — or `none` for the `float("inf")` no-data
sentinel, exactly as `model.predict_safe_path` line 146 stores
`round(dmin_km, 3) if dmin_km != float("inf") else None`. -/
structure RiskInfo where
  minDistanceKm : Option ℚ
  tca : Option (List Char)
  regime : List Char
  thresholdKm : ℚ
  risky : Bool
deriving DecidableEq

/-- The `maneuver` sub-dictionary of the result. -/
structure Maneuver where
  mtype : List Char
  dvMps : ℚ
  note : List Char
deriving DecidableEq

/-- The `tle_output` sub-dictionary of the result. -/
structure TleOutput where
  satelliteTle : List Char
  debrisTle : List Char
  predictedSafeTle : List Char
deriving DecidableEq

/-- The full success dictionary of `model.predict_safe_path`. -/
structure ResultRecord where
  risk : RiskInfo
  maneuver : Maneuver
  tleOutput : TleOutput
  satPathKm : List (ℚ × ℚ × ℚ)
  debPathKm : List (ℚ × ℚ × ℚ)
  debugErrors : List (List Char)
deriving DecidableEq

/-- Outcome of a call to `model.predict_safe_path`: a structured
`{"error": ...}` return, the success dictionary, or an uncaught Python
exception (`raw`). -/
inductive PredictOutcome where
  | errObj : List Char → PredictOutcome
  | ok : ResultRecord → PredictOutcome
  | raw : List Char → PredictOutcome
deriving DecidableEq

/-- Model of `f"{name}\n{l1}\n{l2}"`. -/
def joinTle (name l1 l2 : List Char) : List Char :=
  name ++ '\n' :: l1 ++ '\n' :: l2

/-- The success record of an outcome, if any (projection used to state
facts about concrete pipeline runs decidably). -/
def okRec : PredictOutcome → Option ResultRecord
  | .ok r => some r
  | _ => none

/-- Model of `model.predict_safe_path`, the two objects' external propagators
abstracted as `satProp` / `debProp` (§6 of the spec: the propagator and
the wall clock are external collaborators). -/
def predict_safe_path (satProp debProp : ℤ → Option RawSample)
    (satellite_tle debris_tle : List Char)
    (horizon_minutes step_seconds : ℤ) : PredictOutcome :=
  match validate_tle satellite_tle with
  | .error e => .errObj ("TLE validation failed: ".toList ++ e)
  | .ok (sat_name, sat_l1, sat_l2) =>
  match validate_tle debris_tle with
  | .error e => .errObj ("TLE validation failed: ".toList ++ e)
  | .ok (deb_name, deb_l1, deb_l2) =>
    let mmRes := parsePyFloat (pySlice sat_l2 52 63)
    let regime := match mmRes with
      | some mm_sat => regime_from_mean_motion mm_sat
      | none => "UNKNOWN".toList
    let dbg0 : List (List Char) :=
      match mmRes with
      | some _ => []
      | none => ["Mean motion parsing failed".toList]
    let step_s_adjusted := if regime ≠ "GEO".toList then step_seconds else max 300 step_seconds
    match propagate_positions satProp (joinTle sat_name sat_l1 sat_l2) horizon_minutes step_s_adjusted with
    | .error e => .raw e
    | .ok sat_path =>
    match propagate_positions debProp (joinTle deb_name deb_l1 deb_l2) horizon_minutes step_s_adjusted with
    | .error e => .raw e
    | .ok deb_path =>
      let dbg1 := dbg0 ++ (if sat_path = [] then ["Satellite propagation returned 0 points".toList] else [])
        ++ (if deb_path = [] then ["Debris propagation returned 0 points".toList] else [])
      let nres := nearest_approach_km sat_path deb_path
      let threshold := if regime = "LEO".toList then LEO_CA_THRESHOLD_KM else GEO_CA_THRESHOLD_KM
      let risky := assess_risky nres.1 threshold
      let maneuver : Maneuver :=
        if risky then
          ⟨"retrograde_burn".toList, 1, "Small along-track tweak to desynchronize TCA.".toList⟩
        else
          ⟨"no_action".toList, 0, "Separation above threshold.".toList⟩
      let safe_tle :=
        if risky then generate_safe_tle (joinTle sat_name sat_l1 sat_l2) 1
        else joinTle sat_name sat_l1 sat_l2
      .ok {
        risk := ⟨(nres.1).map roundSqrt3, (nres.2).map Meta.time, regime, threshold, risky⟩
        maneuver := maneuver
        tleOutput := ⟨joinTle sat_name sat_l1 sat_l2, joinTle deb_name deb_l1 deb_l2, safe_tle⟩
        satPathKm := sat_path.map Sample.r
        debPathKm := deb_path.map Sample.r
        debugErrors := dbg1 }

end model

end OrbitPred

/-! ## Theorems -/

-- The Batteries definitions of the rational operations are marked
-- irreducible; the kernel evaluations in the concrete statements below
-- need the elaborator to unfold them.
namespace OrbitPred

/-! ### Concrete reference inputs used by counterexamples and witnesses
`exL1` / `exL2` form a syntactically valid 69-character element set with
correct checksums ('7' and '3') and mean motion `15.50000000` (an LEO
regime value); `exSatTle` is the two-line form (so the parsed name is
`"UNKNOWN"`), `exDebTle` a named three-line form. `exProp` is a stub
propagator placing both objects at the same point, forcing a zero
minimum distance, hence a risky assessment. -/

def exL1 : List Char := "1 25544U 98067A   24001.50000000  .00016717  00000-0  10270-3 0  9997".toList

def exL2 : List Char := "2 25544  51.6400 208.9163 0006317  69.9862 325.2906 15.50000000100003".toList

def exSatTle : List Char := exL1 ++ '\n' :: exL2

def exDebTle : List Char := "DEB".toList ++ '\n' :: exL1 ++ '\n' :: exL2

def exProp : ℤ → Option model.RawSample := fun k =>
  some ⟨'T' :: natToDigits k.natAbs, (some 1, some 2, some 2), (some 0, some 0, some 0)⟩

/-- Variant of `exL2` with the mean-motion span (columns 53–63) replaced by
letters, so that `float(L2[52:63])` raises. -/
def exBadL2 : List Char := "2 25544  51.6400 208.9163 0006317  69.9862 325.2906 XXXXXXXXXXX100003".toList

/-- A two-line element set whose mean-motion field does not parse. -/
def exBadSatTle : List Char := exL1 ++ '\n' :: exBadL2

/-- The output of `utils.adjust_mean_motion_l2 exL2 (1/20000)`: mean
motion `15.50005000`, checksum digit recomputed from '3' to '8'. -/
def exAdjusted : List Char := "2 25544  51.6400 208.9163 0006317  69.9862 325.2906 15.50005000100008".toList

/-- The squared Euclidean separation of the `i`-th index-aligned sample
pair of two trajectories (shorthand used by the closest-approach
statements). -/
def sqD (a b : List model.Sample) (i : Nat) : ℚ :=
  model.sqDist ((a.getD i default).r) ((b.getD i default).r)

/-- A single-line blob holding line 1 and line 2 separated by a space
(the third input shape of the utils normalizer). -/
def exBlobTle : List Char := exL1 ++ ' ' :: exL2

/-- The squared minimum separation of two index-aligned position
sequences — the same strict-`<` scan `nearest_approach_km` runs, but
phrased over the bare position lists a result record exposes in
`paths`, so that a statement can tie the record's risk flag to the
actual (unrounded) minimum of its own trajectories. -/
def posSqMin (a b : List (ℚ × ℚ × ℚ)) : Option ℚ :=
  (model.nearLoop ((a.zip b).map fun p => model.sqDist p.1 p.2) 0 none).map Prod.fst

/-- Merge of an already-held best `(dm, km)` with the outcome of a
continued scan: the continued scan's result wins exactly when its
distance is strictly smaller (proof-side description of the
accumulator of `model.nearLoop`). -/
def mergeBest (dm : ℚ) (km : Nat) : Option (ℚ × Nat) → Option (ℚ × Nat)
  | none => some (dm, km)
  | some (m, k) => if m < dm then some (m, k) else some (dm, km)

/-- A synthetic three-sample satellite trajectory (all at the origin). -/
def exPathA : List model.Sample :=
  [⟨"t0".toList, (0, 0, 0), (0, 0, 0)⟩,
   ⟨"t1".toList, (0, 0, 0), (0, 0, 0)⟩,
   ⟨"t2".toList, (0, 0, 0), (0, 0, 0)⟩]

/-- A synthetic three-sample debris trajectory with squared separations
`9, 4, 25` from `exPathA`: the injected strict minimum sits at index 1. -/
def exPathB : List model.Sample :=
  [⟨"t0".toList, (3, 0, 0), (0, 0, 0)⟩,
   ⟨"t1".toList, (2, 0, 0), (0, 0, 0)⟩,
   ⟨"t2".toList, (5, 0, 0), (0, 0, 0)⟩]

end OrbitPred

section Proofs

attribute [local semireducible] Rat.mul Rat.add Rat.sub Rat.inv

namespace OrbitPred

/-- Reading `getD` through `take`, inside the taken range. -/
theorem getD_take (l : List α) (k i : Nat) (d : α) (h : i < k) :
    (l.take k).getD i d = l.getD i d := by
  induction l generalizing k i with
  | nil => simp
  | cons c cs ih =>
    cases k with
    | zero => omega
    | succ k =>
      cases i with
      | zero => simp [List.getD]
      | succ i => simpa [List.getD] using ih k i (by omega)

/-- Reading `getD` through `drop`. -/
theorem getD_drop (l : List α) (k i : Nat) (d : α) :
    (l.drop k).getD i d = l.getD (k + i) d := by
  induction l generalizing k with
  | nil => simp
  | cons c cs ih =>
    cases k with
    | zero => simp
    | succ k => simp [List.getD, Nat.succ_add, ih k]

/-- Claim C7: the code path the claim describes does not exist — no
positivity validation of `horizon_minutes` / `step_seconds` is
performed, and a call with `step_seconds = 0` on a non-GEO satellite
reaches `range(0, minutes*60+1, 0)`, whose `ValueError` is raised
through `predict_safe_path` as a raw fault instead of being rejected or
wrapped: here a concrete such call evaluates to the uncaught-exception
outcome. -/
theorem c7_theorem :
    model.predict_safe_path exProp exProp exSatTle exDebTle 60 0 =
      .raw "range() arg 3 must not be zero".toList := by
  decide

/-- Claim C3 counterexample: a normalized element set whose lines are
68 characters long (not 69) passes `validate_tle` unchanged, while the
claim requires a `FormatError` whenever a line's length differs from
69. -/
theorem c3_counterexample :
    model.validate_tle (exL1.take 68 ++ '\n' :: exL2.take 68) =
      .ok ("UNKNOWN".toList, exL1.take 68, exL2.take 68) ∧
    (exL1.take 68).length = 68 := by
  decide

/-- Claim C3, amended: the validator fails (with the
`"TLE lines too short"` error) exactly when either normalized line is
shorter than 68 characters, and otherwise returns the normalized
element set unchanged. -/
theorem c3_theorem (t name l1 l2 : List Char)
    (h : model.normalize_tle_block t = .ok (name, l1, l2)) :
    (model.validate_tle t = .error "TLE lines too short".toList ↔
      (l1.length < 68 ∨ l2.length < 68)) ∧
    (68 ≤ l1.length → 68 ≤ l2.length →
      model.validate_tle t = .ok (name, l1, l2)) := by
  unfold model.validate_tle
  rw [h]
  by_cases hc : l1.length < 68 ∨ l2.length < 68
  · simp [hc]
    omega
  · simp [hc]

/-- Claim C3 witness: the reference 69-character element set passes the
validator unchanged. -/
theorem c3_witness :
    model.validate_tle exSatTle = .ok ("UNKNOWN".toList, exL1, exL2) :=
  (c3_theorem exSatTle "UNKNOWN".toList exL1 exL2 (by decide)).2
    (by decide) (by decide)

/-- Claim C9: `model.generate_safe_tle` catches every exception raised
while synthesizing the safe element set — a normalization failure or an
unparseable mean-motion field (columns 53–63 of line 2) — and returns
the original input text unchanged instead of raising. -/
theorem c9_theorem (t : List Char) (dv : ℚ) :
    (∀ e, model.normalize_tle_block t = .error e →
      model.generate_safe_tle t dv = t) ∧
    (∀ name l1 l2, model.normalize_tle_block t = .ok (name, l1, l2) →
      parsePyFloat (pySlice l2 52 63) = none →
      model.generate_safe_tle t dv = t) := by
  constructor
  · intro e he
    simp [model.generate_safe_tle, he]
  · intro name l1 l2 hok hparse
    simp [model.generate_safe_tle, hok, hparse]

/-- Claim C9 witness: on a syntactically valid element set whose
mean-motion field is unparseable, the pipeline's safe-TLE synthesizer
returns its input byte-identically. -/
theorem c9_witness :
    model.generate_safe_tle exBadSatTle 1 = exBadSatTle :=
  (c9_theorem exBadSatTle 1).2 "UNKNOWN".toList exL1 exBadL2
    (by decide) (by decide)

/-- The checksum only reads the first 68 characters, so a suffix after
a 68-character prefix does not change it. -/
theorem tle_checksum_append (x y : List Char) (h : 68 ≤ x.length) :
    utils.tle_checksum (x ++ y) = utils.tle_checksum x := by
  unfold utils.tle_checksum
  rw [List.take_append_eq_append_take, Nat.sub_eq_zero_of_le h]
  simp

/-- Claim C6 counterexample: with a delta that pushes the mean motion
to `105.5`, the field `f"{new_mm:11.8f}"` renders 12 characters wide,
so the substitution shifts every byte after column 63: here byte 64
(1-based), which the claim requires untouched, changes from '1' to
'0'. -/
theorem c6_counterexample :
    ((utils.adjust_mean_motion_l2 exL2 90).map fun (l : List Char) => l.getD 63 ' ')
      = some '0' ∧ exL2.getD 63 ' ' = '1' ∧ ('0' : Char) ≠ '1' := by
  decide

/-- Claim C6, amended: provided the mean-motion field parses, the line
is the nominal 69 characters, and the re-rendered value still fits the
11-character field (that is, `-10 < new value < 100`), the field editor
alters no byte outside the 1-based column span [53,63] and the checksum
column 69; for wider rendered values the tail of the line shifts. -/
theorem c6_theorem (line2 : List Char) (δ mm : ℚ) (l2' : List Char)
    (hmm : parsePyFloat (pySlice line2 52 63) = some mm)
    (hlen : line2.length = 69)
    (hfmt : (format11_8 (mm + δ)).length = 11)
    (hres : utils.adjust_mean_motion_l2 line2 δ = some l2') :
    l2'.length = 69 ∧
    ∀ i, i ≠ 68 → (i < 52 ∨ 62 < i) → l2'.getD i ' ' = line2.getD i ' ' := by
  unfold utils.adjust_mean_motion_l2 at hres
  rw [hmm] at hres
  simp only [Option.map_some', Option.some_inj] at hres
  set f := format11_8 (mm + δ) with hf
  have hl0 : (utils.replace_col_span line2 53 63 f).length = 69 := by
    unfold utils.replace_col_span
    simp [hlen, hfmt]
  rw [if_neg (by omega)] at hres
  set l2₀ := utils.replace_col_span line2 53 63 f with hl2₀
  have htk : (l2₀.take 68).length = 68 := by
    simp [hl0]
  constructor
  · rw [← hres]
    simp [htk]
  · intro i h68 hout
    rw [← hres]
    have hcs : l2₀ = (line2.take 52 ++ f) ++ line2.drop 63 := by
      rw [hl2₀]
      unfold utils.replace_col_span
      simp
    rcases Nat.lt_or_ge i 69 with hi | hi
    · have hi68 : i < 68 := by omega
      rw [List.getD_append (l2₀.take 68) [utils.tle_checksum l2₀] ' ' i (by omega),
        getD_take l2₀ 68 i ' ' hi68]
      rcases hout with hlt | hgt
      · have htk52 : (line2.take 52).length = 52 := by
          simp [hlen]
        rw [hcs, List.append_assoc,
          List.getD_append (line2.take 52) (f ++ line2.drop 63) ' ' i (by omega),
          getD_take line2 52 i ' ' hlt]
      · have hpre : ((line2.take 52 ++ f)).length = 63 := by
          simp [hlen, hfmt]
        rw [hcs, List.getD_append_right (line2.take 52 ++ f) (line2.drop 63) ' ' i (by omega),
          hpre, getD_drop]
        congr 1
        omega
    · have h1 : l2'.length = 69 := by
        rw [← hres]
        simp [htk]
      rw [hres, List.getD_eq_default _ _ (by omega),
        List.getD_eq_default _ _ (by omega)]

/-- Claim C1 counterexample: in a concrete risky pipeline run the
emitted safe element set's line 2 still carries the original checksum
byte '3' at column 69, while a fresh recomputation over columns 1–68
gives '8' — the pipeline path builds the line without recomputing the
checksum, so the claim's "always carries a valid checksum" fails. -/
theorem c1_counterexample :
    ((model.okRec (model.predict_safe_path exProp exProp exSatTle exDebTle 1 30)).map fun r =>
      (r.risk.risky,
       ((pySplitLines r.tleOutput.predictedSafeTle).getD 2 []).getD 68 ' ',
       utils.tle_checksum ((pySplitLines r.tleOutput.predictedSafeTle).getD 2 [])))
      = some (true, '3', '8') ∧ ('3' : Char) ≠ '8' := by
  decide

/-- Claim C1, amended: the checksum-fixing field editor
(`utils.adjust_mean_motion_l2`) does return a 69-character line whose
column-69 digit equals a fresh checksum recomputation over columns
1–68; but the safe element set emitted on the risky pipeline path is
built by `model.generate_safe_tle`, which copies the original column-69
byte unchanged instead of recomputing it, so that set's checksum is in
general stale. -/
theorem c1_theorem :
    (∀ line2 (δ : ℚ) l2', utils.adjust_mean_motion_l2 line2 δ = some l2' →
      l2'.length = 69 ∧ l2'.getD 68 ' ' = utils.tle_checksum l2') ∧
    (∀ t (dv : ℚ) name l1 l2 mm,
      model.normalize_tle_block t = .ok (name, l1, l2) →
      parsePyFloat (pySlice l2 52 63) = some mm →
      l2.length = 69 →
      (format11_8 (mm + dv * (1 / 20000))).length = 11 →
      model.generate_safe_tle t dv =
        name ++ '\n' :: l1 ++ '\n' ::
          (l2.take 52 ++ format11_8 (mm + dv * (1 / 20000)) ++ l2.drop 63) ∧
      (l2.take 52 ++ format11_8 (mm + dv * (1 / 20000)) ++ l2.drop 63).getD 68 ' '
        = l2.getD 68 ' ') := by
  constructor
  · intro line2 δ l2' hres
    unfold utils.adjust_mean_motion_l2 at hres
    cases hp : parsePyFloat (pySlice line2 52 63) with
    | none => rw [hp] at hres; simp at hres
    | some mm =>
      rw [hp] at hres
      simp only [Option.map_some', Option.some_inj] at hres
      set l2₀ := utils.replace_col_span line2 53 63 (format11_8 (mm + δ)) with hl2₀
      set l2₁ := if l2₀.length < 69 then pyLjust l2₀ 68 ++ ['0'] else l2₀ with hl2₁
      have h68 : 68 ≤ l2₁.length := by
        rw [hl2₁]
        split
        · simp [pyLjust]
          omega
        · omega
      have htk : (l2₁.take 68).length = 68 := by
        simp
        omega
      constructor
      · rw [← hres]
        simp [htk]
      · rw [← hres,
          List.getD_append_right (l2₁.take 68) [utils.tle_checksum l2₁] ' ' 68 (by omega),
          tle_checksum_append (l2₁.take 68) [utils.tle_checksum l2₁] (by omega), htk]
        unfold utils.tle_checksum
        simp [List.take_take]
  · intro t dv name l1 l2 mm hok hparse hlen hfmt
    constructor
    · simp [model.generate_safe_tle, hok, hparse]
    · have hpre : (l2.take 52 ++ format11_8 (mm + dv * (1 / 20000))).length = 63 := by
        simp only [List.length_append, List.length_take, hfmt, hlen]
        omega
      rw [List.getD_append_right (l2.take 52 ++ format11_8 (mm + dv * (1 / 20000)))
          (l2.drop 63) ' ' 68 (by omega), hpre, getD_drop]

/-- Claim C1 witness: the checksum-editor half, instantiated on the
reference line with the nominal delta: the edited line's final byte
matches a fresh recomputation. -/
theorem c1_witness :
    exAdjusted.getD 68 ' ' = utils.tle_checksum exAdjusted :=
  (c1_theorem.1 exL2 (1 / 20000) exAdjusted (by decide)).2

/-- Claim C6 witness: for the nominal delta `1 * 0.00005` on the
reference line the edited line keeps its length and its byte at
column 64 (the first byte after the mean-motion span). -/
theorem c6_witness :
    exAdjusted.length = 69 ∧ exAdjusted.getD 63 ' ' = exL2.getD 63 ' ' := by
  have h := c6_theorem exL2 (1 / 20000) (31 / 2) exAdjusted
    (by decide) (by decide) (by decide) (by decide)
  exact ⟨h.1, h.2 63 (by decide) (by decide)⟩

/-- Seeding the scan with a best candidate is the same as scanning from
the empty state and merging afterwards. -/
theorem nearLoop_some (ds : List ℚ) : ∀ (i : Nat) (dm : ℚ) (km : Nat),
    model.nearLoop ds i (some (dm, km)) = mergeBest dm km (model.nearLoop ds i none) := by
  induction ds with
  | nil => intro i dm km; rfl
  | cons d rest ih =>
    intro i dm km
    simp only [model.nearLoop]
    by_cases h1 : d < dm
    · rw [if_pos h1, ih]
      cases hx : model.nearLoop rest (i + 1) none with
      | none => simp [mergeBest, if_pos h1]
      | some p =>
        obtain ⟨m, k⟩ := p
        by_cases h2 : m < d
        · simp [mergeBest, if_pos h2, if_pos (lt_trans h2 h1)]
        · simp [mergeBest, if_neg h2, if_pos h1]
    · rw [if_neg h1, ih, ih]
      cases hx : model.nearLoop rest (i + 1) none with
      | none => simp [mergeBest, if_neg h1]
      | some p =>
        obtain ⟨m, k⟩ := p
        by_cases h2 : m < d
        · simp [mergeBest, if_pos h2]
        · have h3 : ¬ m < dm := by
            push_neg at h1 h2 ⊢
            exact le_trans h1 h2
          simp [mergeBest, if_neg h2, if_neg h1, if_neg h3]

/-- The start index only offsets the reported position of the minimum. -/
theorem nearLoop_shift (ds : List ℚ) : ∀ (i : Nat),
    model.nearLoop ds i none = (model.nearLoop ds 0 none).map fun p => (p.1, p.2 + i) := by
  induction ds with
  | nil => intro i; rfl
  | cons d rest ih =>
    intro i
    simp only [model.nearLoop]
    rw [nearLoop_some, nearLoop_some, ih (i + 1), ih 1]
    cases hy : model.nearLoop rest 0 none with
    | none => simp [mergeBest]
    | some p =>
      obtain ⟨m, k⟩ := p
      by_cases h : m < d
      · simp only [Option.map_some', mergeBest, if_pos h]
        simp
        omega
      · simp only [Option.map_some', mergeBest, if_neg h]
        simp

/-- The empty-seeded scan returns the strict minimum of the list and
the earliest index attaining it. -/
theorem nearLoop_spec (ds : List ℚ) :
    (model.nearLoop ds 0 none = none → ds = []) ∧
    (∀ m k, model.nearLoop ds 0 none = some (m, k) →
      k < ds.length ∧ ds.getD k 0 = m ∧
      (∀ j, j < ds.length → m ≤ ds.getD j 0) ∧
      (∀ j, j < k → m < ds.getD j 0)) := by
  induction ds with
  | nil =>
    constructor
    · intro _; rfl
    · intro m k h; simp [model.nearLoop] at h
  | cons d rest ih =>
    have hstep : model.nearLoop (d :: rest) 0 none
        = mergeBest d 0 ((model.nearLoop rest 0 none).map fun p => (p.1, p.2 + 1)) := by
      simp only [model.nearLoop]
      rw [nearLoop_some, nearLoop_shift rest 1]
    constructor
    · intro h
      rw [hstep] at h
      cases hy : model.nearLoop rest 0 none with
      | none => rw [hy] at h; simp [mergeBest] at h
      | some p =>
        obtain ⟨m, k⟩ := p
        rw [hy] at h
        simp only [Option.map_some', mergeBest] at h
        split at h <;> simp at h
    · intro m k h
      rw [hstep] at h
      cases hy : model.nearLoop rest 0 none with
      | none =>
        have hrest : rest = [] := ih.1 hy
        rw [hy] at h
        simp only [Option.map_none', mergeBest, Option.some_inj, Prod.mk.injEq] at h
        obtain ⟨hm, hk⟩ := h
        subst hm hk hrest
        refine ⟨by simp, by simp, ?_, by omega⟩
        intro j hj
        cases j with
        | zero => simp
        | succ j => simp at hj
      | some p =>
        obtain ⟨m', k'⟩ := p
        have hp := ih.2 m' k' hy
        rw [hy] at h
        simp only [Option.map_some', mergeBest] at h
        by_cases hcmp : m' < d
        · rw [if_pos hcmp] at h
          simp only [Option.some_inj, Prod.mk.injEq] at h
          obtain ⟨hm, hk⟩ := h
          subst hm
          subst hk
          refine ⟨by simp; omega, by simpa using hp.2.1, ?_, ?_⟩
          · intro j hj
            cases j with
            | zero => simpa using le_of_lt hcmp
            | succ j => simpa using hp.2.2.1 j (by simp at hj; omega)
          · intro j hj
            cases j with
            | zero => simpa using hcmp
            | succ j => simpa using hp.2.2.2 j (by omega)
        · rw [if_neg hcmp] at h
          simp only [Option.some_inj, Prod.mk.injEq] at h
          obtain ⟨hm, hk⟩ := h
          subst hm
          subst hk
          refine ⟨by simp, by simp, ?_, by omega⟩
          intro j hj
          cases j with
          | zero => simp
          | succ j =>
            have := hp.2.2.1 j (by simp at hj; omega)
            have hd : d ≤ m' := not_lt.mp hcmp
            simpa using le_trans hd this

/-- The scanned squared-distance list evaluates, inside its range, to
the squared separation of the index-aligned sample pair. -/
theorem dists_getD (a : List model.Sample) : ∀ (b : List model.Sample) (i : Nat),
    i < min a.length b.length →
    (((a.zip b).map fun p => model.sqDist p.1.r p.2.r).getD i 0) = sqD a b i := by
  induction a with
  | nil => intro b i hi; simp at hi
  | cons x xs ih =>
    intro b i hi
    cases b with
    | nil => simp at hi
    | cons y ys =>
      cases i with
      | zero => simp [sqD]
      | succ i =>
        have hi2 : i < min xs.length ys.length := by
          simp at hi
          omega
        simpa [sqD] using ih ys i hi2

/-- Claim C4: `nearest_approach_km` compares exactly
`n = min (len a) (len b)` index-aligned pairs; for `n = 0` it returns
the no-data result (`inf`/`-1`/empty metadata modelled as `none`s, no
exception), and otherwise it returns the minimum (squared) separation
together with the earliest index attaining it — replacement is governed
by strict `<`, so the first index wins ties — and that index's
timestamp and both positions. -/
theorem c4_theorem (a b : List model.Sample) :
    (min a.length b.length = 0 → model.nearest_approach_km a b = (none, none)) ∧
    (∀ m md, model.nearest_approach_km a b = (some m, some md) →
      md.index < min a.length b.length ∧
      m = sqD a b md.index ∧
      (∀ i, i < min a.length b.length → m ≤ sqD a b i) ∧
      (∀ i, i < md.index → m < sqD a b i) ∧
      md.time = (a.getD md.index default).t ∧
      md.sat_r = (a.getD md.index default).r ∧
      md.deb_r = (b.getD md.index default).r) ∧
    (0 < min a.length b.length →
      ∃ m md, model.nearest_approach_km a b = (some m, some md)) := by
  have hdl : ((a.zip b).map fun p => model.sqDist p.1.r p.2.r).length
      = min a.length b.length := by
    simp
  refine ⟨?_, ?_, ?_⟩
  · intro h0
    have hnil : (a.zip b).map (fun p => model.sqDist p.1.r p.2.r) = [] := by
      rw [← List.length_eq_zero, hdl, h0]
    unfold model.nearest_approach_km
    rw [hnil]
    rfl
  · intro m md h
    unfold model.nearest_approach_km at h
    cases hx : model.nearLoop ((a.zip b).map fun p => model.sqDist p.1.r p.2.r) 0 none with
    | none => rw [hx] at h; simp at h
    | some p =>
      obtain ⟨m', k'⟩ := p
      rw [hx] at h
      simp only [Prod.mk.injEq, Option.some_inj] at h
      obtain ⟨hm, hmd⟩ := h
      subst hm
      have hp := (nearLoop_spec _).2 m' k' hx
      rw [hdl] at hp
      have hidx : md.index = k' := by rw [← hmd]
      have htime : md.time = (a.getD k' default).t := by rw [← hmd]
      have hsat : md.sat_r = (a.getD k' default).r := by rw [← hmd]
      have hdeb : md.deb_r = (b.getD k' default).r := by rw [← hmd]
      rw [hidx, htime, hsat, hdeb]
      refine ⟨hp.1, ?_, ?_, ?_, rfl, rfl, rfl⟩
      · rw [← dists_getD a b k' hp.1, hp.2.1]
      · intro i hi
        rw [← dists_getD a b i hi]
        exact hp.2.2.1 i hi
      · intro i hi
        rw [← dists_getD a b i (lt_trans hi hp.1)]
        exact hp.2.2.2 i hi
  · intro hpos
    cases hx : model.nearLoop ((a.zip b).map fun p => model.sqDist p.1.r p.2.r) 0 none with
    | none =>
      have := (nearLoop_spec _).1 hx
      rw [← List.length_eq_zero, hdl] at this
      omega
    | some p =>
      obtain ⟨m', k'⟩ := p
      refine ⟨m', ⟨(a.getD k' default).t, (a.getD k' default).r, (b.getD k' default).r, k'⟩, ?_⟩
      unfold model.nearest_approach_km
      rw [hx]

/-- Claim C4 witness: on the synthetic three-sample trajectories with
squared separations `9, 4, 25`, the scan's reported minimum `4` at
index `1` is the separation at index 1, is a lower bound of the other
pairs, and is strictly below the index-0 separation (so the earliest
minimum wins). -/
theorem c4_witness :
    sqD exPathA exPathB 1 = 4 ∧ (4 : ℚ) ≤ sqD exPathA exPathB 0 ∧
      (4 : ℚ) < sqD exPathA exPathB 0 := by
  have h := (c4_theorem exPathA exPathB).2.1 4
    ⟨"t1".toList, (0, 0, 0), (2, 0, 0), 1⟩ (by decide)
  exact ⟨h.2.1.symm, h.2.2.1 0 (by decide), h.2.2.2.1 0 (by decide)⟩

/-- The scan over a record's exposed position paths computes exactly
the first component of `nearest_approach_km` on the underlying sample
lists (the squared distance only reads positions). -/
theorem posSqMin_map_r (a b : List model.Sample) :
    posSqMin (a.map model.Sample.r) (b.map model.Sample.r)
      = (model.nearest_approach_km a b).1 := by
  unfold posSqMin model.nearest_approach_km
  have hz : (((a.map model.Sample.r).zip (b.map model.Sample.r)).map fun p => model.sqDist p.1 p.2)
      = ((a.zip b).map fun p => model.sqDist p.1.r p.2.r) := by
    rw [List.zip_map, List.map_map]
    rfl
  rw [hz]
  cases hx : model.nearLoop ((a.zip b).map fun p => model.sqDist p.1.r p.2.r) 0 none with
  | none => rfl
  | some p =>
    obtain ⟨m, k⟩ := p
    rfl

/-- Claim C5: the risk flag is set iff a minimum distance exists (is
not the no-data sentinel) and is at most the threshold — equality with
the threshold is risky — stated over squared distances, which is
equivalent on nonnegatives; the no-data case is never risky and
propagates as an explicit `none`.  In every success record of the
pipeline the flag equals this assessment of the *unrounded* minimum
separation of the record's own trajectories (the stored
`min_distance_km` field is the `round(·, 3)`-ed distance, which is
`none` exactly when there was no data, and `none` forces the flag
off). -/
theorem c5_theorem :
    (∀ (d : Option ℚ) (th : ℚ), (∀ s, d = some s → 0 ≤ s) →
      ((model.assess_risky d th = true ↔ ∃ s, d = some s ∧ 0 ≤ s ∧ s ≤ th ^ 2) ∧
       (d = none → model.assess_risky d th = false))) ∧
    (∀ satProp debProp st dt hm ss r,
      model.predict_safe_path satProp debProp st dt hm ss = .ok r →
      r.risk.risky
        = model.assess_risky (posSqMin r.satPathKm r.debPathKm) r.risk.thresholdKm ∧
      (r.risk.minDistanceKm = none ↔ posSqMin r.satPathKm r.debPathKm = none) ∧
      (r.risk.minDistanceKm = none → r.risk.risky = false)) := by
  constructor
  · intro d th h0
    constructor
    · cases d with
      | none => simp [model.assess_risky]
      | some s =>
        simp only [model.assess_risky, decide_eq_true_eq]
        constructor
        · intro hle
          exact ⟨s, rfl, h0 s rfl, hle⟩
        · rintro ⟨s1, hs1, _, hle⟩
          rw [Option.some_inj.mp hs1]
          exact hle
    · intro hd
      rw [hd]
      rfl
  · intro satProp debProp st dt hm ss r h
    cases hval1 : model.validate_tle st with
    | error e =>
      unfold model.predict_safe_path at h
      rw [hval1] at h
      simp at h
    | ok trips =>
      obtain ⟨sn, s1, s2⟩ := trips
      cases hval2 : model.validate_tle dt with
      | error e =>
        unfold model.predict_safe_path at h
        rw [hval1, hval2] at h
        simp at h
      | ok tripd =>
        obtain ⟨dn, d1, d2⟩ := tripd
        unfold model.predict_safe_path at h
        rw [hval1, hval2] at h
        dsimp only at h
        split at h
        · simp at h
        · split at h
          · simp at h
          · simp only [model.PredictOutcome.ok.injEq] at h
            subst h
            refine ⟨?_, ?_, ?_⟩
            · dsimp only
              rw [posSqMin_map_r]
            · dsimp only
              rw [Option.map_eq_none', posSqMin_map_r]
            · intro hnone
              dsimp only at hnone ⊢
              rw [Option.map_eq_none'] at hnone
              rw [hnone]
              rfl

/-- With a non-zero step, `propagate_positions` never raises: it
returns some (possibly empty) trajectory. -/
theorem propagate_ok (prop : ℤ → Option model.RawSample) (t : List Char)
    (hm ss : ℤ) (hss : ss ≠ 0) :
    ∃ l, model.propagate_positions prop t hm ss = .ok l := by
  unfold model.propagate_positions
  cases hv : model.validate_tle t with
  | error e => exact ⟨[], rfl⟩
  | ok v => exact ⟨_, by rw [if_neg hss]⟩

/-- Claim C10: when the satellite's mean-motion field (line 2, columns
53–63) does not parse as a float, `predict_safe_path` does not fail
(given a step that does not itself raise, cf. C7): it records the
regime as the string `"UNKNOWN"` — outside the documented LEO/MEO/GEO
enumeration — applies the 25.0 km default threshold, runs the whole
pipeline to a success record, and reports the failure only in the debug
diagnostics. -/
theorem c10_theorem (satProp debProp : ℤ → Option model.RawSample)
    (st dt : List Char) (hm ss : ℤ)
    (satName sat1 sat2 debName deb1 deb2 : List Char)
    (hsat : model.validate_tle st = .ok (satName, sat1, sat2))
    (hdeb : model.validate_tle dt = .ok (debName, deb1, deb2))
    (hparse : parsePyFloat (pySlice sat2 52 63) = none)
    (hss : ss ≠ 0) :
    (model.okRec (model.predict_safe_path satProp debProp st dt hm ss)).map
      (fun r => (r.risk.regime, r.risk.thresholdKm, r.debugErrors.getD 0 []))
      = some ("UNKNOWN".toList, (25 : ℚ), "Mean motion parsing failed".toList) := by
  obtain ⟨satPath, hsp⟩ := propagate_ok satProp (model.joinTle satName sat1 sat2) hm ss hss
  obtain ⟨debPath, hdp⟩ := propagate_ok debProp (model.joinTle debName deb1 deb2) hm ss hss
  unfold model.predict_safe_path
  rw [hsat, hdeb]
  dsimp only
  rw [hparse]
  dsimp only
  rw [if_pos (show ("UNKNOWN".toList : List Char) ≠ "GEO".toList from by decide)]
  rw [hsp, hdp]
  dsimp only [model.okRec, Option.map_some']
  rw [if_neg (show ¬ ("UNKNOWN".toList : List Char) = "LEO".toList from by decide)]
  rw [List.getD_append _ _ _ _ (by simp), List.getD_append _ _ _ _ (by simp)]
  rfl

/-- Claim C10 witness: the concrete element set with letters in the
mean-motion field runs the pipeline to completion with regime
`"UNKNOWN"`, threshold 25, and the parse failure logged first in the
debug diagnostics. -/
theorem c10_witness :
    (model.okRec (model.predict_safe_path exProp exProp exBadSatTle exDebTle 1 30)).map
      (fun r => (r.risk.regime, r.risk.thresholdKm, r.debugErrors.getD 0 []))
      = some ("UNKNOWN".toList, (25 : ℚ), "Mean motion parsing failed".toList) :=
  c10_theorem exProp exProp exBadSatTle exDebTle 1 30
    "UNKNOWN".toList exL1 exBadL2 "DEB".toList exL1 exL2
    (by decide) (by decide) (by decide) (by decide)

/-- The fuel-driven digit extractor agrees with the `Nat.digits`
rendering whenever it has enough fuel. -/
theorem natToDigitsAux_eq (fuel : ℕ) : ∀ (m : ℕ) (acc : List Char), m ≤ fuel →
    natToDigitsAux fuel m acc = ((Nat.digits 10 m).map Nat.digitChar).reverse ++ acc := by
  induction fuel with
  | zero =>
    intro m acc h
    interval_cases m
    simp [natToDigitsAux]
  | succ fuel ih =>
    intro m acc h
    by_cases hm : m = 0
    · subst hm
      simp [natToDigitsAux]
    · have hlt : m / 10 ≤ fuel := by
        have := Nat.div_lt_self (Nat.pos_of_ne_zero hm) (by norm_num : 1 < 10)
        omega
      rw [natToDigitsAux, if_neg hm, ih (m / 10) _ hlt,
        Nat.digits_def' (by norm_num : (1 : ℕ) < 10) (Nat.pos_of_ne_zero hm)]
      simp

/-- The rendering of a positive natural is its decimal digit string. -/
theorem natToDigits_eq (m : ℕ) (hm : m ≠ 0) :
    natToDigits m = ((Nat.digits 10 m).map Nat.digitChar).reverse := by
  unfold natToDigits
  rw [if_neg hm, natToDigitsAux_eq m m [] le_rfl]
  simp

/-- Every character of a rendered natural is an ASCII digit. -/
theorem natToDigits_mem_digit (m : ℕ) : ∀ c ∈ natToDigits m, c.isDigit = true := by
  by_cases hm : m = 0
  · subst hm
    intro c hc
    simp [natToDigits] at hc
    subst hc
    decide
  · rw [natToDigits_eq m hm]
    intro c hc
    simp only [List.mem_reverse, List.mem_map] at hc
    obtain ⟨d, hd, rfl⟩ := hc
    have hd10 : d < 10 := Nat.digits_lt_base (by norm_num) hd
    interval_cases d <;> decide

/-- A rendered natural is never the empty string. -/
theorem natToDigits_ne_nil (m : ℕ) : natToDigits m ≠ [] := by
  by_cases hm : m = 0
  · subst hm
    simp [natToDigits]
  · rw [natToDigits_eq m hm]
    simp only [ne_eq, List.reverse_eq_nil_iff, List.map_eq_nil_iff]
    exact Nat.digits_ne_nil_iff_ne_zero.mpr hm

/-- Evaluating a most-significant-first digit rendering recovers
`Nat.ofDigits` of the little-endian digit list. -/
theorem evalDigits_rev_map (l : List ℕ) (h : ∀ d ∈ l, d < 10) :
    evalDigits ((l.map Nat.digitChar).reverse) = Nat.ofDigits 10 l := by
  induction l with
  | nil => simp [evalDigits, Nat.ofDigits]
  | cons d t ih =>
    have hd : d < 10 := h d (by simp)
    rw [List.map_cons, List.reverse_cons]
    unfold evalDigits
    rw [List.foldl_concat]
    have ht := ih (fun x hx => h x (by simp [hx]))
    unfold evalDigits at ht
    rw [ht, Nat.ofDigits_cons]
    have hchar : (Nat.digitChar d).toNat - 48 = d := by interval_cases d <;> decide
    rw [hchar]
    omega

/-- Round trip: evaluating the rendering of a natural gives it back. -/
theorem evalDigits_natToDigits (m : ℕ) : evalDigits (natToDigits m) = m := by
  by_cases hm : m = 0
  · subst hm
    decide
  · rw [natToDigits_eq m hm,
      evalDigits_rev_map _ (fun d hd => Nat.digits_lt_base (by norm_num) hd),
      Nat.ofDigits_digits]

/-- A natural below `10 ^ k` has at most `k` decimal digits. -/
theorem digits_length_le (m k : ℕ) (h : m < 10 ^ k) :
    (Nat.digits 10 m).length ≤ k := by
  rcases Nat.eq_zero_or_pos m with rfl | hm
  · simp
  · by_contra hlt
    push_neg at hlt
    have h1 : 10 ^ (Nat.digits 10 m).length ≤ 10 * m :=
      Nat.base_pow_length_digits_le 10 m (by norm_num) (by omega)
    have h2 : 10 ^ (k + 1) ≤ 10 ^ (Nat.digits 10 m).length :=
      Nat.pow_le_pow_right (by norm_num) (by omega)
    have h3 : 10 * 10 ^ k ≤ 10 * m := by
      calc 10 * 10 ^ k = 10 ^ (k + 1) := by ring
        _ ≤ 10 ^ (Nat.digits 10 m).length := h2
        _ ≤ 10 * m := h1
    omega

/-- The rendering of a natural below `10 ^ k` (with `k ≥ 1`) is at most
`k` characters wide. -/
theorem natToDigits_length_le (m k : ℕ) (h : m < 10 ^ k) (hk : 1 ≤ k) :
    (natToDigits m).length ≤ k := by
  by_cases hm : m = 0
  · subst hm
    simpa [natToDigits] using hk
  · rw [natToDigits_eq m hm]
    simpa using digits_length_le m k h

/-- Leading zeros do not change the value of a digit string. -/
theorem evalDigits_pad (j : ℕ) (ds : List Char) :
    evalDigits (List.replicate j '0' ++ ds) = evalDigits ds := by
  induction j with
  | zero => simp
  | succ j ih =>
    rw [List.replicate_succ, List.cons_append]
    unfold evalDigits at ih ⊢
    rw [List.foldl_cons]
    have h0 : 10 * 0 + ('0'.toNat - 48) = 0 := by decide
    rw [h0]
    exact ih

/-- The scan `takeWhile isDigit` passes over an all-digit prefix. -/
theorem takeWhile_digit_append (ds t : List Char) (h : ∀ c ∈ ds, c.isDigit = true) :
    (ds ++ t).takeWhile Char.isDigit = ds ++ t.takeWhile Char.isDigit := by
  induction ds with
  | nil => simp
  | cons c cs ih =>
    rw [List.cons_append, List.takeWhile_cons_of_pos (h c (by simp)),
      ih (fun x hx => h x (by simp [hx]))]
    simp

/-- Leading blanks are transparent to `dropWhile isSpaceChar`. -/
theorem dropWhile_space_replicate (k : ℕ) (core : List Char) :
    (List.replicate k ' ' ++ core).dropWhile isSpaceChar = core.dropWhile isSpaceChar := by
  induction k with
  | zero => simp
  | succ k ih =>
    rw [List.replicate_succ, List.cons_append,
      List.dropWhile_cons_of_pos (by decide : isSpaceChar ' ' = true)]
    exact ih

/-- A left-padding of blanks is transparent to the float parser. -/
theorem parsePyFloat_pad (k : ℕ) (core : List Char) :
    parsePyFloat (List.replicate k ' ' ++ core) = parsePyFloat core := by
  unfold parsePyFloat pyStrip
  rw [dropWhile_space_replicate]

/-- A trailing non-blank character protects the whole string from
`stripRight`. -/
theorem stripRight_concat_nonspace (l : List Char) (d : Char) (h : isSpaceChar d = false) :
    stripRight (l ++ [d]) = l ++ [d] := by
  induction l with
  | nil => simp [stripRight, h]
  | cons c cs ih =>
    rw [List.cons_append]
    unfold stripRight
    rw [ih]
    cases cs with
    | nil => simp
    | cons x xs => simp

/-- An ASCII digit is not Python whitespace. -/
theorem not_space_of_digit (c : Char) (h : c.isDigit = true) : isSpaceChar c = false := by
  by_contra hns
  rw [Bool.not_eq_false] at hns
  unfold isSpaceChar at hns
  simp only [Bool.or_eq_true, beq_iff_eq] at hns
  rcases hns with ((((h1 | h1) | h1) | h1) | h1) | h1 <;> subst h1 <;> exact absurd h (by decide)

/-- An ASCII digit is neither a sign character nor a decimal point. -/
theorem digit_ne_sign (c : Char) (h : c.isDigit = true) :
    c ≠ '-' ∧ c ≠ '+' ∧ c ≠ '.' := by
  refine ⟨?_, ?_, ?_⟩ <;> rintro rfl <;> exact absurd h (by decide)

/-- A non-blank first character and a non-blank last character protect
a string from `pyStrip`. -/
theorem pyStrip_sandwich (c0 : Char) (mid : List Char) (el : Char)
    (h0 : isSpaceChar c0 = false) (hel : isSpaceChar el = false) :
    pyStrip (c0 :: (mid ++ [el])) = c0 :: (mid ++ [el]) := by
  unfold pyStrip
  rw [List.dropWhile_cons_of_neg (by rw [h0]; simp)]
  have hsh : c0 :: (mid ++ [el]) = (c0 :: mid) ++ [el] := by simp
  rw [hsh, stripRight_concat_nonspace _ el hel]

/-- Parsing the rendered fixed-point core
`[-]<digits I>.<8-digit zero-padded F>` recovers the signed value
`I + F/10^8`. -/
theorem parse_render (neg : Bool) (I F : ℕ) (hF : F < 10 ^ 8) :
    parsePyFloat ((if neg then ['-'] else []) ++ natToDigits I ++ '.' ::
        (List.replicate (8 - (natToDigits F).length) '0' ++ natToDigits F))
      = some ((if neg then (-1 : ℚ) else 1) * ((I : ℚ) + (F : ℚ) / 10 ^ 8)) := by
  have hDd := natToDigits_mem_digit I
  have hEd := natToDigits_mem_digit F
  have hDne := natToDigits_ne_nil I
  have hEne := natToDigits_ne_nil F
  obtain ⟨d0, D', hD'⟩ := List.exists_cons_of_ne_nil hDne
  have hd0 : d0.isDigit = true := hDd d0 (by rw [hD']; simp)
  obtain ⟨E', el, hE'⟩ : ∃ E' el, natToDigits F = E' ++ [el] :=
    ⟨_, _, (List.dropLast_append_getLast hEne).symm⟩
  have hel : el.isDigit = true := hEd el (by rw [hE']; simp)
  have hpadd : ∀ c ∈ List.replicate (8 - (natToDigits F).length) '0' ++ natToDigits F,
      c.isDigit = true := by
    intro c hc
    rcases List.mem_append.mp hc with hc | hc
    · rw [List.eq_of_mem_replicate hc]; decide
    · exact hEd c hc
  have hiplen : (List.replicate (8 - (natToDigits F).length) '0' ++ natToDigits F).length = 8 := by
    have hE8 : (natToDigits F).length ≤ 8 := natToDigits_length_le F 8 hF (by norm_num)
    simp only [List.length_append, List.length_replicate]
    omega
  have hipeval : evalDigits (List.replicate (8 - (natToDigits F).length) '0' ++ natToDigits F)
      = F := by
    rw [evalDigits_pad, evalDigits_natToDigits]
  -- the part after the optional sign, and the parse facts about it
  have htw : (natToDigits I ++ '.' ::
      (List.replicate (8 - (natToDigits F).length) '0' ++ natToDigits F)).takeWhile Char.isDigit
      = natToDigits I := by
    rw [takeWhile_digit_append _ _ hDd, List.takeWhile_cons_of_neg (by decide)]
    simp
  have hdr : (natToDigits I ++ '.' ::
      (List.replicate (8 - (natToDigits F).length) '0' ++ natToDigits F)).drop
        (natToDigits I).length
      = '.' :: (List.replicate (8 - (natToDigits F).length) '0' ++ natToDigits F) :=
    List.drop_left _ _
  have htwf : (List.replicate (8 - (natToDigits F).length) '0'
      ++ natToDigits F).takeWhile Char.isDigit
      = List.replicate (8 - (natToDigits F).length) '0' ++ natToDigits F := by
    have := takeWhile_digit_append
      (List.replicate (8 - (natToDigits F).length) '0' ++ natToDigits F) [] hpadd
    simpa using this
  obtain ⟨k, hk⟩ : ∃ k, (natToDigits F).length = k := ⟨_, rfl⟩
  rw [hk] at hiplen hipeval htw hdr htwf ⊢
  cases neg with
  | false =>
    rw [if_neg Bool.false_ne_true, if_neg Bool.false_ne_true, List.nil_append]
    have hshape : natToDigits I ++ '.' ::
        (List.replicate (8 - k) '0' ++ natToDigits F)
        = d0 :: ((D' ++ '.' :: (List.replicate (8 - k) '0' ++ E')) ++ [el]) := by
      rw [hD', hE']
      simp
    unfold parsePyFloat
    dsimp only
    rw [hshape, pyStrip_sandwich d0 _ el (not_space_of_digit d0 hd0) (not_space_of_digit el hel),
      ← hshape]
    have hhead : (natToDigits I ++ '.' ::
        (List.replicate (8 - k) '0' ++ natToDigits F)).headD ' ' = d0 := by
      rw [hD']; simp
    have hne1 : (d0 = '-') = False := eq_false (digit_ne_sign d0 hd0).1
    have hne2 : (d0 = '+') = False := eq_false (digit_ne_sign d0 hd0).2.1
    rw [hhead]
    simp only [hne1, hne2, false_or, if_false]
    rw [htw, hdr]
    simp only [List.headD_cons, List.tail_cons]
    simp only [eq_self_iff_true, if_true]
    rw [htwf, List.drop_length]
    have hcond : (natToDigits I = [] ∧ List.replicate (8 - k) '0' ++ natToDigits F = [])
        = False := eq_false (by simp [hDne])
    simp only [hcond, if_false]
    simp only [eq_self_iff_true, if_true]
    rw [hipeval, hiplen, evalDigits_natToDigits]
  | true =>
    rw [if_pos rfl, if_pos rfl]
    have hflat : ['-'] ++ natToDigits I ++ '.' ::
        (List.replicate (8 - k) '0' ++ natToDigits F)
        = '-' :: (natToDigits I ++ '.' :: (List.replicate (8 - k) '0' ++ natToDigits F)) := by
      simp
    rw [hflat]
    have hshape : '-' :: (natToDigits I ++ '.' ::
        (List.replicate (8 - k) '0' ++ natToDigits F))
        = '-' :: ((natToDigits I ++ '.' :: (List.replicate (8 - k) '0' ++ E')) ++ [el]) := by
      rw [hE']
      simp
    unfold parsePyFloat
    dsimp only
    rw [hshape, pyStrip_sandwich '-' _ el (by decide) (not_space_of_digit el hel), ← hshape]
    simp only [List.headD_cons, List.tail_cons]
    simp only [eq_self_iff_true, if_true, true_or]
    rw [htw, hdr]
    simp only [List.headD_cons, List.tail_cons]
    simp only [eq_self_iff_true, if_true]
    rw [htwf, List.drop_length]
    have hcond : (natToDigits I = [] ∧ List.replicate (8 - k) '0' ++ natToDigits F = [])
        = False := eq_false (by simp [hDne])
    simp only [hcond, if_false]
    simp only [eq_self_iff_true, if_true]
    rw [hipeval, hiplen, evalDigits_natToDigits]

/-- Parse-format round trip: rendering an exactly-8-decimal value with
`f"{x:11.8f}"` and re-parsing the field recovers the value exactly. -/
theorem parse_format11_8 (n : ℤ) :
    parsePyFloat (format11_8 ((n : ℚ) / 10 ^ 8)) = some ((n : ℚ) / 10 ^ 8) := by
  have h10 : ((10 : ℚ) ^ 8) ≠ 0 := by norm_num
  have hx : ((n : ℚ) / 10 ^ 8) * 100000000 = (n : ℚ) := by
    have h8 : (100000000 : ℚ) = 10 ^ 8 := by norm_num
    rw [h8, div_mul_cancel₀ _ h10]
  have hround : roundHalfEven ((n : ℚ) / 10 ^ 8 * 100000000) = n := by
    rw [hx]
    unfold roundHalfEven
    rw [Int.floor_intCast]
    norm_num
  have hFlt : n.natAbs % 100000000 < 10 ^ 8 := by
    have : (100000000 : ℕ) = 10 ^ 8 := by norm_num
    rw [this]
    exact Nat.mod_lt _ (by norm_num)
  have hnat : n.natAbs / 100000000 * 10 ^ 8 + n.natAbs % 100000000 = n.natAbs := by
    have hp : (10 : ℕ) ^ 8 = 100000000 := by norm_num
    rw [hp]
    omega
  have hval : ((n.natAbs / 100000000 : ℕ) : ℚ) + ((n.natAbs % 100000000 : ℕ) : ℚ) / 10 ^ 8
      = (n.natAbs : ℚ) / 10 ^ 8 := by
    rw [eq_div_iff h10, add_mul, div_mul_cancel₀ _ h10]
    exact_mod_cast hnat
  unfold format11_8
  rw [hround, parsePyFloat_pad]
  by_cases hneg : (n : ℚ) / 10 ^ 8 < 0
  · have hn0 : n < 0 := by
      by_contra hge
      push_neg at hge
      have hq : (0 : ℚ) ≤ (n : ℚ) := by exact_mod_cast hge
      have : (0 : ℚ) ≤ (n : ℚ) / 10 ^ 8 := by positivity
      linarith
    rw [if_pos hneg]
    have hpr := parse_render true (n.natAbs / 100000000) (n.natAbs % 100000000) hFlt
    rw [if_pos rfl, if_pos rfl] at hpr
    rw [hpr, hval]
    have habs : ((n.natAbs : ℚ)) = -(n : ℚ) := by
      rw [Int.cast_natAbs]
      exact_mod_cast abs_of_nonpos (le_of_lt hn0)
    rw [habs]
    congr 1
    ring
  · rw [if_neg hneg]
    have hn0 : 0 ≤ n := by
      by_contra h
      push_neg at h
      have hq : (n : ℚ) < 0 := by exact_mod_cast h
      exact hneg (div_neg_of_neg_of_pos hq (by norm_num))
    have hpr := parse_render false (n.natAbs / 100000000) (n.natAbs % 100000000) hFlt
    rw [if_neg Bool.false_ne_true, if_neg Bool.false_ne_true, List.nil_append] at hpr
    rw [List.nil_append, hpr, hval]
    have habs : ((n.natAbs : ℚ)) = (n : ℚ) := by
      rw [Int.cast_natAbs]
      exact_mod_cast abs_of_nonneg hn0
    rw [habs]
    congr 1
    ring

/-- Claim C2 counterexample: a concrete risky pipeline run on a
satellite whose original name was `"UNKNOWN"` emits a safe element set
still named `"UNKNOWN"` — the pipeline's synthesizer
(`model.generate_safe_tle`) never renames to `"SAFE"` (that renaming
exists only in the unused `utils.generate_safe_tle`). -/
theorem c2_counterexample :
    ((model.okRec (model.predict_safe_path exProp exProp exSatTle exDebTle 1 30)).map fun r =>
      (r.risk.risky, (pySplitLines r.tleOutput.predictedSafeTle).getD 0 []))
      = some (true, "UNKNOWN".toList) ∧ "UNKNOWN".toList ≠ "SAFE".toList := by
  decide

/-- Claim C2, amended: on every risky assessment the pipeline returns a
`retrograde_burn` plan with `delta_v_mps = 1.0` and the element set
produced by `model.generate_safe_tle` with that delta-v; when the
mean-motion field parses, carries at most 8 decimals, and the updated
value still renders in the 11-character span, the new element set's
mean-motion field re-reads as exactly the original plus
`delta_v_mps × 0.00005` rev/day — but the object's name is never
renamed: it stays `"UNKNOWN"` if it was `"UNKNOWN"`. -/
theorem c2_theorem :
    (∀ satProp debProp st dt hm ss r,
      model.predict_safe_path satProp debProp st dt hm ss = .ok r →
      r.risk.risky = true →
      r.maneuver = ⟨"retrograde_burn".toList, 1,
        "Small along-track tweak to desynchronize TCA.".toList⟩ ∧
      (∀ satName sat1 sat2, model.validate_tle st = .ok (satName, sat1, sat2) →
        r.tleOutput.predictedSafeTle
          = model.generate_safe_tle (model.joinTle satName sat1 sat2) 1)) ∧
    (∀ t (dv : ℚ) name l1 l2 (mm : ℚ) (n : ℤ),
      model.normalize_tle_block t = .ok (name, l1, l2) →
      parsePyFloat (pySlice l2 52 63) = some mm →
      52 ≤ l2.length →
      (format11_8 (mm + dv * (1 / 20000))).length = 11 →
      (mm + dv * (1 / 20000)) * 10 ^ 8 = (n : ℚ) →
      model.generate_safe_tle t dv
        = name ++ '\n' :: l1 ++ '\n' ::
            (l2.take 52 ++ format11_8 (mm + dv * (1 / 20000)) ++ l2.drop 63) ∧
      parsePyFloat (pySlice
          (l2.take 52 ++ format11_8 (mm + dv * (1 / 20000)) ++ l2.drop 63) 52 63)
        = some (mm + dv * (1 / 20000))) := by
  constructor
  · intro satProp debProp st dt hm ss r h hrisky
    cases hval1 : model.validate_tle st with
    | error e =>
      unfold model.predict_safe_path at h
      rw [hval1] at h
      simp at h
    | ok trips =>
      obtain ⟨sn, s1, s2⟩ := trips
      cases hval2 : model.validate_tle dt with
      | error e =>
        unfold model.predict_safe_path at h
        rw [hval1, hval2] at h
        simp at h
      | ok tripd =>
        obtain ⟨dn, d1, d2⟩ := tripd
        unfold model.predict_safe_path at h
        rw [hval1, hval2] at h
        dsimp only at h
        split at h
        · simp at h
        · split at h
          · simp at h
          · simp only [model.PredictOutcome.ok.injEq] at h
            subst h
            simp only at hrisky
            constructor
            · simp only [hrisky, if_true]
            · intro satName sat1 sat2 hv
              simp only [Except.ok.injEq, Prod.mk.injEq] at hv
              obtain ⟨h1, h2, h3⟩ := hv
              subst h1 h2 h3
              simp only [hrisky, if_true]
  · intro t dv name l1 l2 mm n hok hparse h52 hfmt hint
    have h10 : ((10 : ℚ) ^ 8) ≠ 0 := by norm_num
    have hxq : mm + dv * (1 / 20000) = (n : ℚ) / 10 ^ 8 := by
      rw [eq_div_iff h10]
      exact hint
    constructor
    · simp [model.generate_safe_tle, hok, hparse]
    · have h1 : (l2.take 52).length = 52 := by
        simp only [List.length_take]
        omega
      have hsl : pySlice (l2.take 52 ++ format11_8 (mm + dv * (1 / 20000)) ++ l2.drop 63) 52 63
          = format11_8 (mm + dv * (1 / 20000)) := by
        unfold pySlice
        rw [List.append_assoc, List.drop_left' h1]
        have h63 : (63 - 52 : ℕ) = 11 := by norm_num
        rw [h63, List.take_left' hfmt]
      rw [hsl, hxq]
      exact parse_format11_8 n

/-- Claim C2 witness: on the reference element set (name `"UNKNOWN"`,
mean motion `15.50000000`) with `delta_v = 1`, the synthesized line 2
re-reads as mean motion `15.50005` and the name is kept. -/
theorem c2_witness :
    model.generate_safe_tle exSatTle 1
      = "UNKNOWN".toList ++ '\n' :: exL1 ++ '\n' ::
          (exL2.take 52 ++ format11_8 (31 / 2 + 1 * (1 / 20000)) ++ exL2.drop 63) ∧
    parsePyFloat (pySlice
        (exL2.take 52 ++ format11_8 (31 / 2 + 1 * (1 / 20000)) ++ exL2.drop 63) 52 63)
      = some (31 / 2 + 1 * (1 / 20000)) :=
  c2_theorem.2 exSatTle 1 "UNKNOWN".toList exL1 exL2 (31 / 2) 1550005000
    (by decide) (by decide) (by decide) (by decide) (by decide)

/-- Claim C5 witness: a squared distance exactly equal to the squared
threshold (distance = threshold) is assessed risky, and the no-data
sentinel is not. -/
theorem c5_witness :
    model.assess_risky (some 25) 5 = true ∧ model.assess_risky none 5 = false := by
  constructor
  · exact (c5_theorem.1 (some 25) 5
      (by intro s hs; rw [← Option.some_inj.mp hs]; decide)).1.mpr
      ⟨25, rfl, by decide, by decide⟩
  · exact (c5_theorem.1 none 5 (by intro s hs; simp at hs)).2 rfl

/-- A successful line-1 prefix match certifies that the text starts
with the literal '1' and consumes at least one character. -/
theorem matchP1_spec (s : List Char) (k : Nat) (h : utils.matchP1 s = some k) :
    (∃ rest, s = '1' :: rest) ∧ 1 ≤ k := by
  unfold utils.matchP1 at h
  split_ifs at h with h1
  dsimp only at h
  split at h
  · simp only [Option.some_inj] at h
    refine ⟨?_, by omega⟩
    cases s with
    | nil => simp at h1
    | cons c cs =>
      simp only [List.headD_cons] at h1
      exact ⟨cs, by rw [h1]⟩
  · simp at h

/-- A successful line-2 prefix match certifies that the text starts
with the literal '2'. -/
theorem matchP2_spec (s : List Char) (k : Nat) (h : utils.matchP2 s = some k) :
    ∃ rest, s = '2' :: rest := by
  unfold utils.matchP2 at h
  split_ifs at h with h1
  cases s with
  | nil => simp at h1
  | cons c cs =>
    simp only [List.headD_cons] at h1
    exact ⟨cs, by rw [h1]⟩

/-- The position found by `firstP2` really carries a line-2 prefix
match. -/
theorem firstP2_spec (l : List Char) : ∀ r, utils.firstP2 l = some r →
    ∃ k, utils.matchP2 (l.drop r) = some k := by
  induction l with
  | nil => intro r h; simp [utils.firstP2] at h
  | cons c cs ih =>
    intro r h
    unfold utils.firstP2 at h
    by_cases hs : (utils.matchP2 (c :: cs)).isSome
    · rw [if_pos hs] at h
      simp only [Option.some_inj] at h
      subst h
      obtain ⟨k, hk⟩ := Option.isSome_iff_exists.mp hs
      exact ⟨k, by simpa using hk⟩
    · rw [if_neg hs] at h
      cases hf : utils.firstP2 cs with
      | none => rw [hf] at h; simp at h
      | some r0 =>
        rw [hf] at h
        simp only [Option.map_some', Option.some_inj] at h
        subst h
        simpa using ih r0 hf

/-- A successful regex search yields a group 1 starting with '1' and a
group 2 starting with '2'. -/
theorem tleSearch_spec (s : List Char) : ∀ g1 g2, utils.tleSearch s = some (g1, g2) →
    (∃ r1, g1 = '1' :: r1) ∧ (∃ r2, g2 = '2' :: r2) := by
  induction s with
  | nil => intro g1 g2 h; simp [utils.tleSearch] at h
  | cons c cs ih =>
    intro g1 g2 h
    unfold utils.tleSearch at h
    cases hm1 : utils.matchP1 (c :: cs) with
    | none => rw [hm1] at h; exact ih g1 g2 h
    | some k =>
      rw [hm1] at h
      dsimp only at h
      cases hf : utils.firstP2 ((c :: cs).drop k) with
      | none => rw [hf] at h; exact ih g1 g2 h
      | some r =>
        rw [hf] at h
        simp only [Option.some_inj, Prod.mk.injEq] at h
        obtain ⟨hg1, hg2⟩ := h
        obtain ⟨⟨rest, hrest⟩, hk1⟩ := matchP1_spec _ _ hm1
        obtain ⟨c1, hc1⟩ := List.cons.injEq .. ▸ hrest
        constructor
        · refine ⟨(c :: cs).tail.take (k + r - 1), ?_⟩
          rw [← hg1, hrest]
          have hkr : k + r = (k + r - 1) + 1 := by omega
          rw [hkr, List.take_succ_cons]
          simp [hrest]
        · obtain ⟨k2, hk2⟩ := firstP2_spec _ r hf
          obtain ⟨rest2, hrest2⟩ := matchP2_spec _ _ hk2
          refine ⟨rest2, ?_⟩
          rw [← hg2, ← List.drop_drop]
          exact hrest2

/-- The head of a non-blank-headed list survives `pyStrip`, and the
result is nonempty. -/
theorem pyStrip_cons_head (c : Char) (l : List Char) (hc : isSpaceChar c = false) :
    (pyStrip (c :: l)).headD ' ' = c ∧ pyStrip (c :: l) ≠ [] := by
  unfold pyStrip
  rw [List.dropWhile_cons_of_neg (by rw [hc]; simp)]
  cases hsr : stripRight l with
  | nil => simp [stripRight, hsr, hc]
  | cons x xs => simp [stripRight, hsr, hc]

/-- Claim C8: the utils normalizer accepts, as its third input shape, a
single (possibly multi-line) blob on which the pair regex finds a
`1`-led run followed by a `2`-led run — newlines having been replaced
by spaces — returning the stripped pair under the name `"UNKNOWN"`;
when the regex also fails the function returns the `FormatError`
(`ValueError`) message, and those are the only possible outcomes: no
input produces a raw fault. -/
theorem c8_theorem (t : List Char) :
    (∀ g1 g2, utils.twoLineShape t = false → utils.threeLineShape t = false →
      utils.tleSearch (utils.blobOf t) = some (g1, g2) →
      utils.normalize_tle_block t = .ok ("UNKNOWN".toList, pyStrip g1, pyStrip g2) ∧
      (pyStrip g1).headD ' ' = '1' ∧ (pyStrip g2).headD ' ' = '2' ∧
      pyStrip g1 ≠ [] ∧ pyStrip g2 ≠ []) ∧
    (utils.twoLineShape t = false → utils.threeLineShape t = false →
      utils.tleSearch (utils.blobOf t) = none →
      utils.normalize_tle_block t = .error utils.parseErrorMsg) ∧
    (match utils.normalize_tle_block t with
     | .ok _ => True
     | .error e => e = utils.parseErrorMsg) := by
  refine ⟨?_, ?_, ?_⟩
  · intro g1 g2 h2s h3s hsearch
    obtain ⟨⟨r1, hr1⟩, ⟨r2, hr2⟩⟩ := tleSearch_spec _ g1 g2 hsearch
    have hh1 := pyStrip_cons_head '1' r1 (by decide)
    have hh2 := pyStrip_cons_head '2' r2 (by decide)
    refine ⟨?_, by rw [hr1]; exact hh1.1, by rw [hr2]; exact hh2.1,
      by rw [hr1]; exact hh1.2, by rw [hr2]; exact hh2.2⟩
    unfold utils.normalize_tle_block
    rw [h2s, h3s, hsearch]
    simp
  · intro h2s h3s hsearch
    unfold utils.normalize_tle_block
    rw [h2s, h3s, hsearch]
    simp
  · unfold utils.normalize_tle_block
    by_cases h2 : utils.twoLineShape t
    · simp [h2]
    · by_cases h3 : utils.threeLineShape t
      · simp [h2, h3]
      · simp only [h2, h3]
        cases hs : utils.tleSearch (utils.blobOf t) with
        | none => simp
        | some p => simp

/-- Claim C8 witness: a single-line blob `L1 ++ " " ++ L2` (which is
neither of the first two shapes) is normalized through the regex path
to `("UNKNOWN", L1, L2 up to stripping)`, both groups led by their line
digits. -/
theorem c8_witness :
    utils.normalize_tle_block exBlobTle
      = .ok ("UNKNOWN".toList, pyStrip (exL1 ++ [' ']), pyStrip exL2) ∧
    (pyStrip (exL1 ++ [' '])).headD ' ' = '1' ∧
    (pyStrip exL2).headD ' ' = '2' := by
  have h := (c8_theorem exBlobTle).1 (exL1 ++ [' ']) exL2
    (by decide) (by decide) (by decide)
  exact ⟨h.1, h.2.1, h.2.2.1⟩

end OrbitPred

end Proofs
